import Mathlib

/-
Verification of the argument-marshalling module `inseq/attr/feat/attribution_utils.py`.

The Python module is embedded shallowly:

* Python `int` is `Int`; optional arguments are `Option _`.
* Python exceptions are an explicit `PyError` value returned through `Except`.
* Torch tensors are opaque atoms (`Tensor`); the only tensor operation the
  module performs itself is `unsqueeze`, kept as a free constructor.
* Python `dict`s (with `str` keys) are association lists with insertion-order
  semantics: inserting an existing key updates it in place, a new key is
  appended at the end, matching CPython dict behaviour.
* The module's two process-wide registries (`STEP_SCORES_MAP` and the
  `"step_scores"` entry of `DEFAULT_ATTRIBUTION_AGGREGATE_DICT`) become an
  explicit `Registries` state threaded through every operation; each embedded
  operation returns its result paired with the registry state after the call.
* External collaborators (the attribution model's `convert_tokens_to_string`
  and forward pass, `extract_signature_args`, `attribution_method.get_attribution_args`,
  the scoring functions themselves) live outside this file's source and are
  taken as explicit function parameters.
-/

/-- Python exceptions raised (or propagated) by the module. -/
inductive PyError where
  | valueError (msg : String)
  | attributeError (msg : String)
  | keyError
  deriving DecidableEq

/-- Torch tensors are opaque atoms; `unsqueeze` is the only operation applied
to them inside the module (`target_ids.unsqueeze(-1)`). -/
inductive Tensor where
  | atom (n : Nat)
  | unsqueeze (t : Tensor) (dim : Int)
  deriving DecidableEq

/-- Modelled from the spec: the step scoring functions (probability, entropy,
cross-entropy, perplexity) are imported from `inseq.utils`, whose source is not
part of this module; only their identity is used here, so they are atoms.
`custom` covers user-registered scoring functions. -/
inductive StepScoreFn where
  | output2prob
  | output2ent
  | output2ce
  | output2ppl
  | custom (n : Nat)
  deriving DecidableEq

/-- Modelled from the spec: aggregation functions stored in the aggregate
dictionary are opaque; only their identity matters to this module. -/
abbrev AggFn := Nat

/-- A token paired with its id (`inseq.utils.typing.TokenWithId`). -/
structure TokenWithId where
  token : String
  id : Int
  deriving DecidableEq

/-- Attribution scores: Python floats, of which the module only ever inspects
NaN-ness (`math.isnan`), so they are embedded as NaN-or-numeric values. -/
inductive FVal where
  | nan
  | val (x : Int)
  deriving DecidableEq

/-- The `math.isnan` test on an embedded float. -/
def FVal.isnan : FVal → Bool
  | .nan => true
  | .val _ => false

/-- Python values that flow through the argument dictionaries built by the
module: tensors, tuples, booleans, callables (opaque atoms), lists of
strings, nested dictionaries, ints and strings. -/
inductive PyVal where
  | tensor (t : Tensor)
  | tup (xs : List PyVal)
  | pybool (b : Bool)
  | callable (f : Nat)
  | strlist (ss : List String)
  | pydict (d : List (String × PyVal))
  | pyint (n : Int)
  | pystr (s : String)

/-- A Python `dict` with string keys, as an insertion-ordered association list. -/
abbrev PyDict := List (String × PyVal)

/-- Lookup in an insertion-ordered dictionary (`d[k]` / `k in d`). -/
def dictLookup {α : Type} (d : List (String × α)) (k : String) : Option α :=
  match d with
  | [] => none
  | (k', v) :: rest => if k' = k then some v else dictLookup rest k

/-- CPython `d[k] = v`: update in place if the key exists, else append. -/
def dictInsert {α : Type} (d : List (String × α)) (k : String) (v : α) : List (String × α) :=
  match d with
  | [] => [(k, v)]
  | (k', v') :: rest => if k' = k then (k', v) :: rest else (k', v') :: dictInsert rest k v

/-- `d.pop(k, default)`'s effect on the dictionary: remove the key. -/
def dictRemove {α : Type} (d : List (String × α)) (k : String) : List (String × α) :=
  d.filter (fun p => p.1 ≠ k)

/-- `d.update(e)`: insert every entry of `e` into `d`, in `e`'s order. -/
def dictUpdate {α : Type} (d e : List (String × α)) : List (String × α) :=
  e.foldl (fun acc p => dictInsert acc p.1 p.2) d

/-- `list(d.keys())`. -/
def dictKeys {α : Type} (d : List (String × α)) : List String :=
  d.map Prod.fst

/-- `k in d`. -/
def hasKey {α : Type} (d : List (String × α)) (k : String) : Bool :=
  (dictLookup d k).isSome

/-- Coerce a `PyVal` expected to be a dictionary; returns `[]` on non-dicts
(call sites guard this with a well-typedness hypothesis). -/
def asDictD : PyVal → PyDict
  | .pydict d => d
  | _ => []

/-- Python slice index resolution for `xs[start:stop]` with step `1`:
negative indices count from the end, then the index is clamped to `[0, len]`. -/
def sliceIndex (n : Nat) (i : Int) : Nat :=
  let j : Int := if i < 0 then i + n else i
  if j < 0 then 0 else if j > (n : Int) then n else j.toNat

/-- Python list slicing `xs[start:stop]`. -/
def pySlice {α : Type} (xs : List α) (start stop : Int) : List α :=
  let a := sliceIndex xs.length start
  let b := sliceIndex xs.length stop
  (xs.drop a).take (b - a)

/-- Python `enumerate`, starting from index `i`. -/
def pyEnumFrom {α : Type} (i : Nat) : List α → List (Nat × α)
  | [] => []
  | a :: as_ => (i, a) :: pyEnumFrom (i + 1) as_

/-- Python `enumerate(xs)`. -/
def pyEnumerate {α : Type} (xs : List α) : List (Nat × α) :=
  pyEnumFrom 0 xs

/-- The process-wide mutable state of the module: `STEP_SCORES_MAP` and the
`"step_scores"` sub-dictionary of `DEFAULT_ATTRIBUTION_AGGREGATE_DICT`
(modelled from the spec: the latter is defined in `inseq.data.attribution`,
outside this module; only its `"step_scores"` entry — a mapping from
aggregator names to identifier-to-function maps — is ever touched here). -/
structure Registries where
  step_scores_map : List (String × StepScoreFn)
  default_attribution_aggregate_dict : List (String × List (String × AggFn))

/-- The initial value of the registry `STEP_SCORES_MAP` (module line 22). -/
def STEP_SCORES_MAP : List (String × StepScoreFn) :=
  [("probability", .output2prob),
   ("entropy", .output2ent),
   ("crossentropy", .output2ce),
   ("perplexity", .output2ppl)]

/-- A concrete registry state: the initial step-score map and an empty
aggregate dictionary. -/
def reg0 : Registries :=
  { step_scores_map := STEP_SCORES_MAP,
    default_attribution_aggregate_dict := [] }

/-- Resolution of `attr_pos_start` (module lines 109-110): `None` becomes 1. -/
def resolveStart (attr_pos_start : Option Int) : Int :=
  match attr_pos_start with
  | none => 1
  | some v => v

/-- Resolution of `attr_pos_end` (module lines 111-112): `None` or a value
greater than `max_length` becomes `max_length`. -/
def resolveEnd (max_length : Int) (attr_pos_end : Option Int) : Int :=
  match attr_pos_end with
  | none => max_length
  | some v => if v > max_length then max_length else v

/-- `check_attribute_positions` (module lines 88-117). -/
def check_attribute_positions (max_length : Int)
    (attr_pos_start attr_pos_end : Option Int) (st : Registries) :
    Except PyError (Int × Int) × Registries :=
  (let s := resolveStart attr_pos_start
   let e := resolveEnd max_length attr_pos_end
   if s > e ∨ s < 1 then
     Except.error (.valueError "Invalid starting position for attribution")
   else if s = e then
     Except.error (.valueError "Start and end attribution positions cannot be the same.")
   else
     Except.ok (s, e), st)

/-- `tok2string` (module lines 32-44). The model's `convert_tokens_to_string`
is an external collaborator, passed as the function parameter
`convert_tokens_to_string`; `start` and `end` are first expanded into
per-sequence lists and then used by index, exactly as in the source. -/
def tok2string {Out : Type} (convert_tokens_to_string : List (List String) → Bool → Out)
    (token_lists : List (List String)) (start end_ : Option Int)
    (as_targets : Bool) (st : Registries) : Out × Registries :=
  (let startL : List Int := token_lists.map (fun _ => start.getD 0)
   let endL : List Int := token_lists.map (fun tokens => end_.getD (tokens.length : Int))
   convert_tokens_to_string
     ((pyEnumerate token_lists).map
       (fun p => pySlice p.2 (startL.getD p.1 0) (endL.getD p.1 0)))
     as_targets, st)

/-- `rescale_attributions_to_tokens` (module lines 79-85). -/
def rescale_attributions_to_tokens (attributions : List (List FVal))
    (tokens : List (List String)) (st : Registries) :
    List (List FVal) × Registries :=
  ((attributions.zip tokens).map
    (fun p => if !(p.1.all FVal.isnan) then p.1.take p.2.length else []), st)

/-- `join_token_ids` (module lines 153-154). -/
def join_token_ids (tokens : List (List String)) (ids : List (List Int))
    (st : Registries) : List (List TokenWithId) × Registries :=
  ((tokens.zip ids).map
    (fun p => (p.1.zip p.2).map (fun q => TokenWithId.mk q.1 q.2)), st)

/-- `list_step_scores` (module lines 337-341). -/
def list_step_scores (st : Registries) : List String × Registries :=
  (dictKeys st.step_scores_map, st)

/-- `register_step_score` (module lines 344-388): stores `fn` under
`identifier` in `STEP_SCORES_MAP` and, when an aggregate map is given, files
each aggregation function under
`DEFAULT_ATTRIBUTION_AGGREGATE_DICT["step_scores"][agg_name][identifier]`. -/
def register_step_score (fn : StepScoreFn) (identifier : String)
    (aggregate_map : Option (List (String × AggFn))) (st : Registries) :
    Registries :=
  let st1 : Registries :=
    { st with step_scores_map := dictInsert st.step_scores_map identifier fn }
  match aggregate_map with
  | none => st1
  | some am =>
    let agg :=
      am.foldl
        (fun d p => dictInsert d p.1 (dictInsert ((dictLookup d p.1).getD []) identifier p.2))
        st1.default_attribution_aggregate_dict
    { st1 with default_attribution_aggregate_dict := agg }

/-- The model and its batch context used by `get_step_scores`: the forward
pass is an external collaborator taking the source/target embeddings and
attention masks. -/
structure AttributionModel where
  model : Tensor → Tensor → Tensor → Tensor → Tensor

/-- One side of a batch (`inseq.data.batch`, outside this module): the tensor
fields accessed by the functions embedded here. -/
structure BatchEncoding where
  input_ids : Tensor
  input_embeds : Tensor
  baseline_ids : Tensor
  baseline_embeds : Tensor
  attention_mask : Tensor

/-- An encoder-decoder batch: sources and targets. -/
structure EncoderDecoderBatch where
  sources : BatchEncoding
  targets : BatchEncoding

/-- A decoder-only batch. -/
structure DecoderOnlyBatch where
  input_ids : Tensor
  input_embeds : Tensor
  baseline_ids : Tensor
  baseline_embeds : Tensor
  attention_mask : Tensor

/-- The union type `Union[EncoderDecoderBatch, DecoderOnlyBatch]`. -/
inductive Batch where
  | ed (b : EncoderDecoderBatch)
  | dec (b : DecoderOnlyBatch)

/-- `get_step_scores` (module lines 120-150): raises ValueError when the
model is absent, runs the forward pass, then looks the scoring function up in
the registry (a missing identifier is a `KeyError`) and applies it. The
application of the scoring function to the forward output, batch context,
target ids and extra arguments is the external parameter `applyScore`. -/
def get_step_scores (attribution_model : Option AttributionModel)
    (applyScore : StepScoreFn → Tensor → EncoderDecoderBatch → Tensor → PyDict → Tensor)
    (batch : EncoderDecoderBatch) (target_ids : Tensor)
    (score_identifier : String) (step_scores_args : PyDict) (st : Registries) :
    Except PyError Tensor × Registries :=
  (match attribution_model with
   | none => Except.error (.valueError "Attribution model is not set.")
   | some am =>
     let output := am.model batch.sources.input_embeds batch.targets.input_embeds
       batch.sources.attention_mask batch.targets.attention_mask
     match dictLookup st.step_scores_map score_identifier with
     | none => Except.error .keyError
     | some fn => Except.ok (applyScore fn output batch target_ids step_scores_args), st)

/-- The step-score portion of `extract_args` (module lines 199-214): walk the
requested step scores, raising `AttributeError` for an identifier missing from
the registry, and otherwise accumulating the signature-matched extras of each
scoring function into `extra_step_scores_args` via dictionary update.
`esaStepScoreFn` models `extract_signature_args` applied to a scoring
function, the (popped) keyword arguments and the excluded default arguments. -/
def stepScoresLoop (esaStepScoreFn : StepScoreFn → PyDict → List String → PyDict)
    (step_scores : List String) (kwargs : PyDict) (default_args : List String)
    (smap : List (String × StepScoreFn)) (acc : PyDict) : Except PyError PyDict :=
  match step_scores with
  | [] => Except.ok acc
  | s :: rest =>
    match dictLookup smap s with
    | none => Except.error (.attributeError ("Step score " ++ s ++ " not found."))
    | some fn =>
      stepScoresLoop esaStepScoreFn rest kwargs default_args smap
        (dictUpdate acc (esaStepScoreFn fn kwargs default_args))

/-- The spec-side description of the step-score extras: the union, by
dictionary update in list order, of the signature-matched arguments of every
requested scoring function (identifiers missing from the registry contribute
nothing; the claims using this always assume none is missing). -/
def stepExtras (esaStepScoreFn : StepScoreFn → PyDict → List String → PyDict)
    (step_scores : List String) (kwargs : PyDict) (default_args : List String)
    (smap : List (String × StepScoreFn)) (acc : PyDict) : PyDict :=
  match step_scores with
  | [] => acc
  | s :: rest =>
    match dictLookup smap s with
    | none => stepExtras esaStepScoreFn rest kwargs default_args smap acc
    | some fn =>
      stepExtras esaStepScoreFn rest kwargs default_args smap
        (dictUpdate acc (esaStepScoreFn fn kwargs default_args))

/-- `extract_args` (module lines 185-226). External collaborators become
function parameters: `get_attribution_args` models
`attribution_method.get_attribution_args(**kwargs)` (returning the extracted
and the unused arguments), `esaAttributedFn` models `extract_signature_args`
on the attributed function with `return_remaining=True`, and `esaStepScoreFn`
models it on a scoring function with `return_remaining=False`. The three
user-supplied dictionaries are popped from `kwargs` first (defaulting to
empty); after the step-score loop each is updated with its extras — a popped
value that is not a dictionary has no `update` attribute, which Python
reports as an `AttributeError`. The unused-argument intersection (module
lines 215-222) only feeds a log warning and is omitted. -/
def extract_args (get_attribution_args : PyDict → PyDict × PyDict)
    (esaAttributedFn : PyDict → List String → PyDict × PyDict)
    (esaStepScoreFn : StepScoreFn → PyDict → List String → PyDict)
    (step_scores : List String) (default_args : List String)
    (kwargs : PyDict) (st : Registries) :
    Except PyError (PyDict × PyDict × PyDict) × Registries :=
  (let attribution_args_v := (dictLookup kwargs "attribution_args").getD (.pydict [])
   let kwargs1 := dictRemove kwargs "attribution_args"
   let attributed_fn_args_v := (dictLookup kwargs1 "attributed_fn_args").getD (.pydict [])
   let kwargs2 := dictRemove kwargs1 "attributed_fn_args"
   let step_scores_args_v := (dictLookup kwargs2 "step_scores_args").getD (.pydict [])
   let kwargs3 := dictRemove kwargs2 "step_scores_args"
   let extra_attribution_args := (get_attribution_args kwargs3).1
   let extra_attributed_fn_args := (esaAttributedFn kwargs3 default_args).1
   match stepScoresLoop esaStepScoreFn step_scores kwargs3 default_args st.step_scores_map [] with
   | Except.error e => Except.error e
   | Except.ok extra_step_scores_args =>
     match attribution_args_v, attributed_fn_args_v, step_scores_args_v with
     | .pydict attribution_args, .pydict attributed_fn_args, .pydict step_scores_args =>
       Except.ok (dictUpdate attribution_args extra_attribution_args,
                  dictUpdate attributed_fn_args extra_attributed_fn_args,
                  dictUpdate step_scores_args extra_step_scores_args)
     | _, _, _ => Except.error (.attributeError "object has no attribute update"), st)

/-- `format_attribute_args_encoder_decoder` (module lines 257-299): builds the
`inputs` tuple, the baselines tuple and the `additional_forward_args` tuple,
appending the attributed-function argument values and, when the target is not
attributed, prepending the target embeddings to the forward arguments. -/
def format_attribute_args_encoder_decoder (batch : EncoderDecoderBatch)
    (target_ids : Tensor) (attributed_fn : Nat) (attribute_target : Bool)
    (attributed_fn_args : PyDict) (is_layer_attribution : Bool) :
    PyDict × List Tensor :=
  let inputs : List Tensor :=
    if is_layer_attribution then [batch.sources.input_ids] else [batch.sources.input_embeds]
  let baselines : List Tensor :=
    if is_layer_attribution then [batch.sources.baseline_ids] else [batch.sources.baseline_embeds]
  let inputs :=
    if attribute_target then inputs ++ [batch.targets.input_embeds] else inputs
  let baselines :=
    if attribute_target then baselines ++ [batch.targets.baseline_embeds] else baselines
  let additional_forward_args : List PyVal :=
    [.tensor batch.sources.input_ids,
     .tensor batch.targets.input_ids,
     .tensor (.unsqueeze target_ids (-1)),
     .callable attributed_fn,
     .tensor batch.sources.attention_mask,
     .tensor batch.targets.attention_mask,
     .pybool (!is_layer_attribution),
     .strlist (dictKeys attributed_fn_args)]
    ++ attributed_fn_args.map Prod.snd
  let additional_forward_args :=
    if !attribute_target then
      PyVal.tensor batch.targets.input_embeds :: additional_forward_args
    else additional_forward_args
  ([("inputs", .tup (inputs.map .tensor)),
    ("additional_forward_args", .tup additional_forward_args)], baselines)

/-- `format_attribute_args_decoder_only` (module lines 302-334). -/
def format_attribute_args_decoder_only (batch : DecoderOnlyBatch)
    (target_ids : Tensor) (attributed_fn : Nat)
    (attributed_fn_args : PyDict) (is_layer_attribution : Bool) :
    PyDict × List Tensor :=
  let inputs : List Tensor :=
    if is_layer_attribution then [batch.input_ids] else [batch.input_embeds]
  let baselines : List Tensor :=
    if is_layer_attribution then [batch.baseline_ids] else [batch.baseline_embeds]
  let additional_forward_args : List PyVal :=
    [.tensor batch.input_ids,
     .tensor (.unsqueeze target_ids (-1)),
     .callable attributed_fn,
     .tensor batch.attention_mask,
     .pybool (!is_layer_attribution),
     .strlist (dictKeys attributed_fn_args)]
    ++ attributed_fn_args.map Prod.snd
  ([("inputs", .tup (inputs.map .tensor)),
    ("additional_forward_args", .tup additional_forward_args)], baselines)

/-- `format_attribute_args` (module lines 229-254): dispatches on
`is_encoder_decoder` (only the encoder-decoder formatter receives
`attribute_target`) and attaches the baselines under the `"baselines"` key
when `use_baseline` is set. Accessing the fields of the wrong batch flavour
(an encoder-decoder batch handed to the decoder-only formatter or vice versa)
fails in Python with an `AttributeError`, modelled here as an error result. -/
def format_attribute_args (batch : Batch) (target_ids : Tensor)
    (attributed_fn : Nat) (attribute_target : Bool)
    (attributed_fn_args : PyDict) (is_layer_attribution : Bool)
    (use_baseline : Bool) (is_encoder_decoder : Bool) (st : Registries) :
    Except PyError PyDict × Registries :=
  (if is_encoder_decoder then
     match batch with
     | .ed b =>
       let r := format_attribute_args_encoder_decoder b target_ids attributed_fn
         attribute_target attributed_fn_args is_layer_attribution
       Except.ok (if use_baseline then
           dictInsert r.1 "baselines" (.tup (r.2.map .tensor))
         else r.1)
     | .dec _ => Except.error (.attributeError "sources")
   else
     match batch with
     | .dec b =>
       let r := format_attribute_args_decoder_only b target_ids attributed_fn
         attributed_fn_args is_layer_attribution
       Except.ok (if use_baseline then
           dictInsert r.1 "baselines" (.tup (r.2.map .tensor))
         else r.1)
     | .ed _ => Except.error (.attributeError "input_ids"), st)

theorem dictLookup_dictInsert_self {α : Type} (d : List (String × α)) (k : String) (v : α) :
    dictLookup (dictInsert d k v) k = some v := by
  induction d with
  | nil => simp [dictInsert, dictLookup]
  | cons p rest ih =>
    obtain ⟨k', v'⟩ := p
    by_cases h : k' = k
    · simp [dictInsert, dictLookup, h]
    · simp [dictInsert, dictLookup, h, ih]

theorem dictLookup_isSome_iff {α : Type} (d : List (String × α)) (k : String) :
    (dictLookup d k).isSome = true ↔ k ∈ dictKeys d := by
  induction d with
  | nil => simp [dictLookup, dictKeys]
  | cons p rest ih =>
    obtain ⟨k', v'⟩ := p
    by_cases h : k' = k
    · subst h
      simp [dictLookup, dictKeys]
    · simp [dictLookup, dictKeys, h, ih]
      intro hk
      exact absurd hk.symm h

theorem dictLookup_dictRemove_ne {α : Type} (d : List (String × α)) (k1 k2 : String)
    (h : k1 ≠ k2) : dictLookup (dictRemove d k1) k2 = dictLookup d k2 := by
  induction d with
  | nil => rfl
  | cons p rest ih =>
    obtain ⟨k', v'⟩ := p
    by_cases hk : k' = k1
    · subst hk
      have hne : k' ≠ k2 := h
      simp [dictRemove, dictLookup, hne, List.filter] at ih ⊢
      simpa [dictRemove, List.filter] using ih
    · simp [dictRemove, dictLookup, hk, List.filter] at ih ⊢
      by_cases h2 : k' = k2
      · simp [h2]
      · simp [h2]
        simpa [dictRemove, List.filter] using ih

theorem resolveEnd_le (max_length : Int) (attr_pos_end : Option Int) :
    resolveEnd max_length attr_pos_end ≤ max_length := by
  cases attr_pos_end with
  | none => simp [resolveEnd]
  | some v =>
    simp only [resolveEnd]
    split <;> omega

/-- C1 (counterexample): the claim predicts a normal return whenever the
resolved start is nonnegative and below the resolved end, but at
`max_length = 5`, `attr_pos_start = 0`, `attr_pos_end = None` the resolved
positions are `(0, 5)` — start nonnegative and below the end — and the code
still raises `ValueError`, because the code's guard is `attr_pos_start < 1`,
not `< 0`. -/
theorem check_attribute_positions_spec_counterexample :
    resolveStart (some 0) < resolveEnd 5 none ∧
    ¬ resolveStart (some 0) < 0 ∧
    (check_attribute_positions 5 (some 0) none reg0).1 =
      Except.error (.valueError "Invalid starting position for attribution") := by
  refine ⟨by decide, by decide, rfl⟩

/-- C1 (amended): `check_attribute_positions` raises `ValueError` exactly when
the resolved start position is greater or equal than the resolved end
position, or the resolved start position is less than 1; for all other inputs
it returns normally. -/
theorem check_attribute_positions_raises_iff (max_length : Int)
    (attr_pos_start attr_pos_end : Option Int) (st : Registries) :
    (∃ msg, (check_attribute_positions max_length attr_pos_start attr_pos_end st).1 =
        Except.error (.valueError msg)) ↔
      (resolveEnd max_length attr_pos_end ≤ resolveStart attr_pos_start ∨
        resolveStart attr_pos_start < 1) := by
  simp only [check_attribute_positions]
  constructor
  · intro ⟨msg, hmsg⟩
    by_contra hcon
    push_neg at hcon
    rw [if_neg (by omega), if_neg (by omega)] at hmsg
    exact absurd hmsg (by simp)
  · intro h
    by_cases hc : resolveStart attr_pos_start > resolveEnd max_length attr_pos_end ∨
        resolveStart attr_pos_start < 1
    · exact ⟨"Invalid starting position for attribution", by rw [if_pos hc]⟩
    · have h2 : resolveStart attr_pos_start = resolveEnd max_length attr_pos_end := by omega
      exact ⟨"Start and end attribution positions cannot be the same.",
        by rw [if_neg hc, if_pos h2]⟩

/-- C2: `check_attribute_positions` resolves a `None` start to 1, resolves the
end to `max_length` whenever it is `None` or greater than `max_length`, and,
when it does not raise, returns exactly the resolved pair. -/
theorem check_attribute_positions_resolution (max_length : Int)
    (attr_pos_start attr_pos_end : Option Int) (st : Registries) (p : Int × Int) :
    resolveStart none = 1 ∧
    resolveEnd max_length none = max_length ∧
    (∀ v : Int, v > max_length → resolveEnd max_length (some v) = max_length) ∧
    ((check_attribute_positions max_length attr_pos_start attr_pos_end st).1 = Except.ok p →
      p = (resolveStart attr_pos_start, resolveEnd max_length attr_pos_end)) := by
  refine ⟨rfl, rfl, ?_, ?_⟩
  · intro v hv
    simp [resolveEnd, hv]
  · intro hok
    obtain ⟨p1, p2⟩ := p
    simp only [check_attribute_positions] at hok
    by_cases h1 : resolveStart attr_pos_start > resolveEnd max_length attr_pos_end ∨
        resolveStart attr_pos_start < 1
    · rw [if_pos h1] at hok
      exact absurd hok (by simp)
    · rw [if_neg h1] at hok
      by_cases h2 : resolveStart attr_pos_start = resolveEnd max_length attr_pos_end
      · rw [if_pos h2] at hok
        exact absurd hok (by simp)
      · rw [if_neg h2] at hok
        have hpq : resolveStart attr_pos_start = p1 ∧ resolveEnd max_length attr_pos_end = p2 := by
          simpa using hok
        simp [hpq.1, hpq.2]

theorem check_attribute_positions_resolution_witness :
    ((9 : Int) > 5 ∧ resolveEnd 5 (some 9) = 5) ∧
    (check_attribute_positions 5 (some 2) (some 9) reg0).1 = Except.ok (2, 5) ∧
    ((2, 5) : Int × Int) = (resolveStart (some 2), resolveEnd 5 (some 9)) := by
  refine ⟨⟨by decide, (check_attribute_positions_resolution 5 (some 2) (some 9) reg0 (2, 5)).2.2.1 9 (by decide)⟩,
    rfl, (check_attribute_positions_resolution 5 (some 2) (some 9) reg0 (2, 5)).2.2.2 rfl⟩

/-- C3: whenever `check_attribute_positions` returns without raising, the
returned pair `(start, end)` satisfies `1 ≤ start < end ≤ max_length`. -/
theorem check_attribute_positions_ok_range (max_length : Int)
    (attr_pos_start attr_pos_end : Option Int) (st : Registries) (p : Int × Int)
    (hok : (check_attribute_positions max_length attr_pos_start attr_pos_end st).1 =
      Except.ok p) :
    1 ≤ p.1 ∧ p.1 < p.2 ∧ p.2 ≤ max_length := by
  have hle := resolveEnd_le max_length attr_pos_end
  obtain ⟨p1, p2⟩ := p
  simp only [check_attribute_positions] at hok
  by_cases h1 : resolveStart attr_pos_start > resolveEnd max_length attr_pos_end ∨
      resolveStart attr_pos_start < 1
  · rw [if_pos h1] at hok
    exact absurd hok (by simp)
  · rw [if_neg h1] at hok
    by_cases h2 : resolveStart attr_pos_start = resolveEnd max_length attr_pos_end
    · rw [if_pos h2] at hok
      exact absurd hok (by simp)
    · rw [if_neg h2] at hok
      have hpq : resolveStart attr_pos_start = p1 ∧ resolveEnd max_length attr_pos_end = p2 := by
        simpa using hok
      show 1 ≤ p1 ∧ p1 < p2 ∧ p2 ≤ max_length
      refine ⟨by omega, by omega, by omega⟩

theorem check_attribute_positions_ok_range_witness :
    (check_attribute_positions 5 (some 2) none reg0).1 = Except.ok (2, 5) ∧
    (1 ≤ ((2, 5) : Int × Int).1 ∧ ((2, 5) : Int × Int).1 < ((2, 5) : Int × Int).2 ∧
      ((2, 5) : Int × Int).2 ≤ 5) := by
  exact ⟨rfl, check_attribute_positions_ok_range 5 (some 2) none reg0 (2, 5) rfl⟩

/-- C5: before any `register_step_score` call the registry holds exactly the
four identifiers probability, entropy, crossentropy and perplexity (mapped to
the corresponding scoring functions) and `list_step_scores` returns exactly
these; after `register_step_score(fn, identifier)` the registry maps
`identifier` to `fn` and `list_step_scores` includes `identifier`. -/
theorem step_scores_registry_contents :
    dictKeys STEP_SCORES_MAP = ["probability", "entropy", "crossentropy", "perplexity"] ∧
    dictLookup STEP_SCORES_MAP "probability" = some .output2prob ∧
    dictLookup STEP_SCORES_MAP "entropy" = some .output2ent ∧
    dictLookup STEP_SCORES_MAP "crossentropy" = some .output2ce ∧
    dictLookup STEP_SCORES_MAP "perplexity" = some .output2ppl ∧
    (∀ agg, (list_step_scores ⟨STEP_SCORES_MAP, agg⟩).1 =
      ["probability", "entropy", "crossentropy", "perplexity"]) ∧
    (∀ (fn : StepScoreFn) (identifier : String) (am : Option (List (String × AggFn)))
        (st : Registries),
      dictLookup (register_step_score fn identifier am st).step_scores_map identifier =
        some fn) ∧
    (∀ (fn : StepScoreFn) (identifier : String) (am : Option (List (String × AggFn)))
        (st : Registries),
      identifier ∈ (list_step_scores (register_step_score fn identifier am st)).1) := by
  have hmap : ∀ (fn : StepScoreFn) (identifier : String)
      (am : Option (List (String × AggFn))) (st : Registries),
      (register_step_score fn identifier am st).step_scores_map =
        dictInsert st.step_scores_map identifier fn := by
    intro fn identifier am st
    cases am <;> rfl
  refine ⟨rfl, rfl, rfl, rfl, rfl, fun _ => rfl, ?_, ?_⟩
  · intro fn identifier am st
    rw [hmap]
    exact dictLookup_dictInsert_self st.step_scores_map identifier fn
  · intro fn identifier am st
    have hsome : (dictLookup (register_step_score fn identifier am st).step_scores_map
        identifier).isSome = true := by
      rw [hmap]
      simp [dictLookup_dictInsert_self]
    exact (dictLookup_isSome_iff _ _).mp hsome

/-- C6: of the module's operations, only `register_step_score` touches the
process-wide registries; `tok2string`, `check_attribute_positions`,
`get_step_scores`, `extract_args`, `format_attribute_args`,
`list_step_scores`, `join_token_ids` and `rescale_attributions_to_tokens` all
return the registry state exactly as they received it. -/
theorem registry_frame_conditions :
    (∀ (Out : Type) (f : List (List String) → Bool → Out) token_lists start end_
        as_targets st,
      (tok2string f token_lists start end_ as_targets st).2 = st) ∧
    (∀ max_length attr_pos_start attr_pos_end st,
      (check_attribute_positions max_length attr_pos_start attr_pos_end st).2 = st) ∧
    (∀ attribution_model applyScore batch target_ids score_identifier step_scores_args st,
      (get_step_scores attribution_model applyScore batch target_ids score_identifier
        step_scores_args st).2 = st) ∧
    (∀ get_attribution_args esaAttributedFn esaStepScoreFn step_scores default_args
        kwargs st,
      (extract_args get_attribution_args esaAttributedFn esaStepScoreFn step_scores
        default_args kwargs st).2 = st) ∧
    (∀ batch target_ids attributed_fn attribute_target attributed_fn_args
        is_layer_attribution use_baseline is_encoder_decoder st,
      (format_attribute_args batch target_ids attributed_fn attribute_target
        attributed_fn_args is_layer_attribution use_baseline is_encoder_decoder st).2 = st) ∧
    (∀ st, (list_step_scores st).2 = st) ∧
    (∀ tokens ids st, (join_token_ids tokens ids st).2 = st) ∧
    (∀ attributions tokens st, (rescale_attributions_to_tokens attributions tokens st).2 = st) := by
  refine ⟨fun _ _ _ _ _ _ _ => rfl, fun _ _ _ _ => rfl, fun _ _ _ _ _ _ _ => rfl,
    fun _ _ _ _ _ _ _ => rfl, fun _ _ _ _ _ _ _ _ _ => rfl, fun _ => rfl,
    fun _ _ _ => rfl, fun _ _ _ => rfl⟩

theorem rescale_getD_length_le (attributions : List (List FVal)) :
    ∀ (tokens : List (List String)) (i : Nat),
      (((attributions.zip tokens).map
        (fun p => if !(p.1.all FVal.isnan) then p.1.take p.2.length else [])).getD i []).length ≤
      (tokens.getD i []).length := by
  induction attributions with
  | nil =>
    intro tokens i
    simp [List.getD]
  | cons a as ih =>
    intro tokens i
    cases tokens with
    | nil => simp [List.getD]
    | cons t ts =>
      cases i with
      | zero =>
        simp only [List.zip_cons_cons, List.map_cons, List.getD_cons_zero]
        cases h : a.all FVal.isnan with
        | true => simp [h]
        | false =>
          simp only [h, Bool.not_false, if_true]
          rw [List.length_take]
          omega
      | succ n =>
        simp only [List.zip_cons_cons, List.map_cons, List.getD_cons_succ]
        exact ih ts n

/-- C10: `rescale_attributions_to_tokens` pairs attribution sequences with
token sequences, maps an all-NaN attribution sequence (vacuously including an
empty one) to the empty list, and otherwise keeps only the first
`len(tokens)` entries; consequently no returned sequence is longer than the
token sequence at the same index. -/
theorem rescale_attributions_to_tokens_spec (attributions : List (List FVal))
    (tokens : List (List String)) (st : Registries) :
    (rescale_attributions_to_tokens attributions tokens st).1 =
      (attributions.zip tokens).map
        (fun p => if p.1.all FVal.isnan then [] else p.1.take p.2.length) ∧
    ∀ i : Nat,
      (((rescale_attributions_to_tokens attributions tokens st).1).getD i []).length ≤
        (tokens.getD i []).length := by
  have hfun : (fun p : List FVal × List String =>
      if !(p.1.all FVal.isnan) then p.1.take p.2.length else []) =
      (fun p => if p.1.all FVal.isnan then [] else p.1.take p.2.length) := by
    funext p
    cases h : p.1.all FVal.isnan <;> simp [h]
  constructor
  · show (attributions.zip tokens).map _ = _
    rw [hfun]
  · intro i
    exact rescale_getD_length_le attributions tokens i

theorem pyEnumFrom_map_slice {α γ : Type} (u v : α → Int) (F : α → Int → Int → γ) :
    ∀ (xs : List α) (n : Nat) (su ev : List Int),
      (∀ j : Nat, su.getD (n + j) 0 = (xs.map u).getD j 0) →
      (∀ j : Nat, ev.getD (n + j) 0 = (xs.map v).getD j 0) →
      (pyEnumFrom n xs).map (fun p => F p.2 (su.getD p.1 0) (ev.getD p.1 0)) =
        xs.map (fun a => F a (u a) (v a)) := by
  intro xs
  induction xs with
  | nil =>
    intro n su ev _ _
    rfl
  | cons x rest ih =>
    intro n su ev hsu hev
    simp only [pyEnumFrom, List.map_cons]
    have h0s : su.getD n 0 = u x := by
      have h := hsu 0
      simpa using h
    have h0e : ev.getD n 0 = v x := by
      have h := hev 0
      simpa using h
    rw [h0s, h0e]
    congr 1
    apply ih (n + 1)
    · intro j
      have h := hsu (j + 1)
      rw [show n + (j + 1) = n + 1 + j from by omega] at h
      simpa using h
    · intro j
      have h := hev (j + 1)
      rw [show n + (j + 1) = n + 1 + j from by omega] at h
      simpa using h

/-- C9: `tok2string` resolves a `None` start to 0 and a `None` end to each
sequence's own length, and hands `convert_tokens_to_string` exactly the slice
`token_lists[i][start:end]` of each sequence, with the same explicit start
and end applied to all sequences. -/
theorem tok2string_slices (Out : Type) (f : List (List String) → Bool → Out)
    (token_lists : List (List String)) (start end_ : Option Int)
    (as_targets : Bool) (st : Registries) :
    (tok2string f token_lists start end_ as_targets st).1 =
      f (token_lists.map (fun tokens =>
          pySlice tokens (start.getD 0) (end_.getD (tokens.length : Int)))) as_targets := by
  have h := pyEnumFrom_map_slice (fun _ => start.getD 0)
    (fun tokens => end_.getD (tokens.length : Int))
    (fun tokens a b => pySlice tokens a b) token_lists 0
    (token_lists.map (fun _ => start.getD 0))
    (token_lists.map (fun tokens => end_.getD (tokens.length : Int)))
    (fun j => by simp) (fun j => by simp)
  simp only [tok2string, pyEnumerate]
  rw [h]

/-- Detects whether an embedded call raised `AttributeError`. -/
def raisesAttributeError {β : Type} (r : Except PyError β) : Bool :=
  match r with
  | Except.error (.attributeError _) => true
  | _ => false

theorem stepScoresLoop_cases (esaStepScoreFn : StepScoreFn → PyDict → List String → PyDict)
    (kwargs : PyDict) (default_args : List String) (smap : List (String × StepScoreFn)) :
    ∀ (step_scores : List String) (acc : PyDict),
      (stepScoresLoop esaStepScoreFn step_scores kwargs default_args smap acc =
          Except.ok (stepExtras esaStepScoreFn step_scores kwargs default_args smap acc) ∧
        step_scores.any (fun s => (dictLookup smap s).isNone) = false) ∨
      (∃ m, stepScoresLoop esaStepScoreFn step_scores kwargs default_args smap acc =
          Except.error (.attributeError m) ∧
        step_scores.any (fun s => (dictLookup smap s).isNone) = true) := by
  intro step_scores
  induction step_scores with
  | nil =>
    intro acc
    exact Or.inl ⟨rfl, rfl⟩
  | cons s rest ih =>
    intro acc
    cases hl : dictLookup smap s with
    | none =>
      refine Or.inr ⟨"Step score " ++ s ++ " not found.", ?_, ?_⟩
      · simp [stepScoresLoop, hl]
      · simp [hl]
    | some fn =>
      rcases ih (dictUpdate acc (esaStepScoreFn fn kwargs default_args)) with
        ⟨hok, hany⟩ | ⟨m, herr, hany⟩
      · refine Or.inl ⟨?_, ?_⟩
        · simp [stepScoresLoop, stepExtras, hl, hok]
        · simp [hl, hany]
      · refine Or.inr ⟨m, ?_, ?_⟩
        · simp [stepScoresLoop, hl, herr]
        · simp [hl, hany]

/-- C4: under well-typed keyword arguments (the three reserved keys, when
present, hold dictionaries — Python's implicit type contract for them),
`extract_args` raises `AttributeError` exactly when some identifier in
`step_scores` is not a key of the step-score registry. -/
theorem extract_args_attribute_error_iff
    (get_attribution_args : PyDict → PyDict × PyDict)
    (esaAttributedFn : PyDict → List String → PyDict × PyDict)
    (esaStepScoreFn : StepScoreFn → PyDict → List String → PyDict)
    (step_scores : List String) (default_args : List String)
    (kwargs : PyDict) (st : Registries)
    (h1 : ∀ v, dictLookup kwargs "attribution_args" = some v → ∃ d, v = PyVal.pydict d)
    (h2 : ∀ v, dictLookup kwargs "attributed_fn_args" = some v → ∃ d, v = PyVal.pydict d)
    (h3 : ∀ v, dictLookup kwargs "step_scores_args" = some v → ∃ d, v = PyVal.pydict d) :
    raisesAttributeError (extract_args get_attribution_args esaAttributedFn esaStepScoreFn
        step_scores default_args kwargs st).1 =
      step_scores.any (fun s => (dictLookup st.step_scores_map s).isNone) := by
  have e2 : dictLookup (dictRemove kwargs "attribution_args") "attributed_fn_args" =
      dictLookup kwargs "attributed_fn_args" :=
    dictLookup_dictRemove_ne kwargs _ _ (by decide)
  have e3 : dictLookup (dictRemove (dictRemove kwargs "attribution_args") "attributed_fn_args")
      "step_scores_args" = dictLookup kwargs "step_scores_args" := by
    rw [dictLookup_dictRemove_ne _ _ _ (by decide),
      dictLookup_dictRemove_ne _ _ _ (by decide)]
  have hd1 : ∃ d, (dictLookup kwargs "attribution_args").getD (PyVal.pydict []) =
      PyVal.pydict d := by
    cases hv : dictLookup kwargs "attribution_args" with
    | none => exact ⟨[], rfl⟩
    | some v =>
      obtain ⟨d, hd⟩ := h1 v hv
      exact ⟨d, by simp [hd]⟩
  have hd2 : ∃ d, (dictLookup kwargs "attributed_fn_args").getD (PyVal.pydict []) =
      PyVal.pydict d := by
    cases hv : dictLookup kwargs "attributed_fn_args" with
    | none => exact ⟨[], rfl⟩
    | some v =>
      obtain ⟨d, hd⟩ := h2 v hv
      exact ⟨d, by simp [hd]⟩
  have hd3 : ∃ d, (dictLookup kwargs "step_scores_args").getD (PyVal.pydict []) =
      PyVal.pydict d := by
    cases hv : dictLookup kwargs "step_scores_args" with
    | none => exact ⟨[], rfl⟩
    | some v =>
      obtain ⟨d, hd⟩ := h3 v hv
      exact ⟨d, by simp [hd]⟩
  obtain ⟨d1, hd1⟩ := hd1
  obtain ⟨d2, hd2⟩ := hd2
  obtain ⟨d3, hd3⟩ := hd3
  simp only [extract_args, e2, e3, hd1, hd2, hd3]
  rcases stepScoresLoop_cases esaStepScoreFn
      (dictRemove (dictRemove (dictRemove kwargs "attribution_args") "attributed_fn_args")
        "step_scores_args") default_args st.step_scores_map step_scores [] with
    ⟨hok, hany⟩ | ⟨m, herr, hany⟩
  · rw [hok, hany]
    rfl
  · rw [herr, hany]
    rfl

/-- A concrete stand-in for `attribution_method.get_attribution_args`. -/
def gaaEx : PyDict → PyDict × PyDict :=
  fun kw => ([("method_arg", PyVal.pyint 3)], kw)

/-- A concrete stand-in for `extract_signature_args` on the attributed function. -/
def esaFnEx : PyDict → List String → PyDict × PyDict :=
  fun kw _ => ([], kw)

/-- A concrete stand-in for `extract_signature_args` on a scoring function. -/
def esaScoreEx : StepScoreFn → PyDict → List String → PyDict :=
  fun _ _ _ => []

theorem extract_args_attribute_error_iff_witness :
    raisesAttributeError (extract_args gaaEx esaFnEx esaScoreEx ["nonexistent"] [] [] reg0).1 =
      true := by
  have h := extract_args_attribute_error_iff gaaEx esaFnEx esaScoreEx ["nonexistent"] [] [] reg0
    (by intro v hv; simp [dictLookup] at hv)
    (by intro v hv; simp [dictLookup] at hv)
    (by intro v hv; simp [dictLookup] at hv)
  rw [h]
  rfl

/-- C8: when every requested step score is registered (and the three reserved
keyword-argument keys, when present, hold dictionaries), `extract_args`
returns the three dictionaries popped from `kwargs` (defaulting to empty),
each updated with the extra keyword arguments matched to its call site: the
attribution method's extracted arguments, the attributed function's
signature-matched arguments, and the union of the signature-matched arguments
of the requested scoring functions. -/
theorem extract_args_returns_updated_dicts
    (get_attribution_args : PyDict → PyDict × PyDict)
    (esaAttributedFn : PyDict → List String → PyDict × PyDict)
    (esaStepScoreFn : StepScoreFn → PyDict → List String → PyDict)
    (step_scores : List String) (default_args : List String)
    (kwargs : PyDict) (st : Registries)
    (h1 : ∀ v, dictLookup kwargs "attribution_args" = some v → ∃ d, v = PyVal.pydict d)
    (h2 : ∀ v, dictLookup kwargs "attributed_fn_args" = some v → ∃ d, v = PyVal.pydict d)
    (h3 : ∀ v, dictLookup kwargs "step_scores_args" = some v → ∃ d, v = PyVal.pydict d)
    (hall : ∀ s ∈ step_scores, s ∈ dictKeys st.step_scores_map) :
    (extract_args get_attribution_args esaAttributedFn esaStepScoreFn step_scores
        default_args kwargs st).1 =
      Except.ok
        (dictUpdate (asDictD ((dictLookup kwargs "attribution_args").getD (PyVal.pydict [])))
          (get_attribution_args (dictRemove (dictRemove (dictRemove kwargs
            "attribution_args") "attributed_fn_args") "step_scores_args")).1,
         dictUpdate (asDictD ((dictLookup kwargs "attributed_fn_args").getD (PyVal.pydict [])))
          (esaAttributedFn (dictRemove (dictRemove (dictRemove kwargs
            "attribution_args") "attributed_fn_args") "step_scores_args") default_args).1,
         dictUpdate (asDictD ((dictLookup kwargs "step_scores_args").getD (PyVal.pydict [])))
          (stepExtras esaStepScoreFn step_scores (dictRemove (dictRemove (dictRemove kwargs
            "attribution_args") "attributed_fn_args") "step_scores_args") default_args
            st.step_scores_map [])) := by
  have e2 : dictLookup (dictRemove kwargs "attribution_args") "attributed_fn_args" =
      dictLookup kwargs "attributed_fn_args" :=
    dictLookup_dictRemove_ne kwargs _ _ (by decide)
  have e3 : dictLookup (dictRemove (dictRemove kwargs "attribution_args") "attributed_fn_args")
      "step_scores_args" = dictLookup kwargs "step_scores_args" := by
    rw [dictLookup_dictRemove_ne _ _ _ (by decide),
      dictLookup_dictRemove_ne _ _ _ (by decide)]
  have hd1 : ∃ d, (dictLookup kwargs "attribution_args").getD (PyVal.pydict []) =
      PyVal.pydict d := by
    cases hv : dictLookup kwargs "attribution_args" with
    | none => exact ⟨[], rfl⟩
    | some v =>
      obtain ⟨d, hd⟩ := h1 v hv
      exact ⟨d, by simp [hd]⟩
  have hd2 : ∃ d, (dictLookup kwargs "attributed_fn_args").getD (PyVal.pydict []) =
      PyVal.pydict d := by
    cases hv : dictLookup kwargs "attributed_fn_args" with
    | none => exact ⟨[], rfl⟩
    | some v =>
      obtain ⟨d, hd⟩ := h2 v hv
      exact ⟨d, by simp [hd]⟩
  have hd3 : ∃ d, (dictLookup kwargs "step_scores_args").getD (PyVal.pydict []) =
      PyVal.pydict d := by
    cases hv : dictLookup kwargs "step_scores_args" with
    | none => exact ⟨[], rfl⟩
    | some v =>
      obtain ⟨d, hd⟩ := h3 v hv
      exact ⟨d, by simp [hd]⟩
  obtain ⟨d1, hd1⟩ := hd1
  obtain ⟨d2, hd2⟩ := hd2
  obtain ⟨d3, hd3⟩ := hd3
  have hany : step_scores.any (fun s => (dictLookup st.step_scores_map s).isNone) = false := by
    rw [List.any_eq_false]
    intro s hs
    have hsome := (dictLookup_isSome_iff st.step_scores_map s).mpr (hall s hs)
    cases hcase : dictLookup st.step_scores_map s with
    | none => rw [hcase] at hsome; simp at hsome
    | some fn => simp
  rcases stepScoresLoop_cases esaStepScoreFn
      (dictRemove (dictRemove (dictRemove kwargs "attribution_args") "attributed_fn_args")
        "step_scores_args") default_args st.step_scores_map step_scores [] with
    ⟨hok, _⟩ | ⟨m, herr, hany2⟩
  · simp only [extract_args, e2, e3, hd1, hd2, hd3, hok, asDictD]
  · rw [hany2] at hany
    exact absurd hany (by simp)

theorem extract_args_returns_updated_dicts_witness :
    (extract_args gaaEx esaFnEx esaScoreEx ["probability"] [] [] reg0).1 =
      Except.ok ([("method_arg", PyVal.pyint 3)], [], []) := by
  have h := extract_args_returns_updated_dicts gaaEx esaFnEx esaScoreEx ["probability"] [] [] reg0
    (by intro v hv; simp [dictLookup] at hv)
    (by intro v hv; simp [dictLookup] at hv)
    (by intro v hv; simp [dictLookup] at hv)
    (by intro s hs; fin_cases hs; decide)
  exact h.trans rfl

/-- C7: `format_attribute_args` returns the argument dictionary produced by
`format_attribute_args_encoder_decoder` when `is_encoder_decoder` is true
(forwarding `attribute_target`) and by `format_attribute_args_decoder_only`
otherwise, with the baselines attached under the `"baselines"` key exactly
when `use_baseline` is set; the returned dictionary contains a `"baselines"`
key if and only if `use_baseline` is true. -/
theorem format_attribute_args_dispatch_baselines (b : EncoderDecoderBatch)
    (b2 : DecoderOnlyBatch) (target_ids : Tensor) (attributed_fn : Nat)
    (attribute_target : Bool) (attributed_fn_args : PyDict)
    (is_layer_attribution use_baseline : Bool) (st : Registries) :
    ((format_attribute_args (.ed b) target_ids attributed_fn attribute_target
        attributed_fn_args is_layer_attribution use_baseline true st).1 =
      Except.ok (if use_baseline then
          dictInsert (format_attribute_args_encoder_decoder b target_ids attributed_fn
              attribute_target attributed_fn_args is_layer_attribution).1 "baselines"
            (.tup ((format_attribute_args_encoder_decoder b target_ids attributed_fn
              attribute_target attributed_fn_args is_layer_attribution).2.map .tensor))
        else (format_attribute_args_encoder_decoder b target_ids attributed_fn
              attribute_target attributed_fn_args is_layer_attribution).1)) ∧
    ((format_attribute_args (.dec b2) target_ids attributed_fn attribute_target
        attributed_fn_args is_layer_attribution use_baseline false st).1 =
      Except.ok (if use_baseline then
          dictInsert (format_attribute_args_decoder_only b2 target_ids attributed_fn
              attributed_fn_args is_layer_attribution).1 "baselines"
            (.tup ((format_attribute_args_decoder_only b2 target_ids attributed_fn
              attributed_fn_args is_layer_attribution).2.map .tensor))
        else (format_attribute_args_decoder_only b2 target_ids attributed_fn
              attributed_fn_args is_layer_attribution).1)) ∧
    (hasKey (if use_baseline then
          dictInsert (format_attribute_args_encoder_decoder b target_ids attributed_fn
              attribute_target attributed_fn_args is_layer_attribution).1 "baselines"
            (.tup ((format_attribute_args_encoder_decoder b target_ids attributed_fn
              attribute_target attributed_fn_args is_layer_attribution).2.map .tensor))
        else (format_attribute_args_encoder_decoder b target_ids attributed_fn
              attribute_target attributed_fn_args is_layer_attribution).1) "baselines" =
      use_baseline) ∧
    (hasKey (if use_baseline then
          dictInsert (format_attribute_args_decoder_only b2 target_ids attributed_fn
              attributed_fn_args is_layer_attribution).1 "baselines"
            (.tup ((format_attribute_args_decoder_only b2 target_ids attributed_fn
              attributed_fn_args is_layer_attribution).2.map .tensor))
        else (format_attribute_args_decoder_only b2 target_ids attributed_fn
              attributed_fn_args is_layer_attribution).1) "baselines" =
      use_baseline) := by
  refine ⟨?_, ?_, ?_, ?_⟩ <;> cases use_baseline <;> rfl
